import Mathlib

set_option maxRecDepth 4000

/-! Verification of the flow-view rendering core and the Historian REST client.

The development shallowly embeds the code of `historian.ts`: the `Historian.getCommits`
rejection handler, and the `FlowView` editor view (cursor rebase in `queueRender`, the
keydown handler of `setEdit`, the `renderTree` pagination pass and `FlowView.render`).
The DOM geometry (an external capability per the design: text measurement and
caret-from-point hit testing) is modelled as a uniform character grid of `wEst`-wide,
`hEst`-tall character cells; every geometric quantity the code reads from the browser
is computed from that grid. -/

namespace Flow

/-- Merge-tree delta kinds (`API.MergeTreeDeltaType`) as consumed by `queueRender`. -/
inductive MergeTreeDeltaType where
  | INSERT
  | REMOVE
deriving DecidableEq, Repr

/-- Remote operation payload: the fields of `API.IMergeTreeOp` read by `queueRender`. -/
structure IMergeTreeOp where
  type : MergeTreeDeltaType
  pos1 : Int
  pos2 : Int
  text : List Char
deriving DecidableEq, Repr

/-- Sequenced message as consumed by `FlowView.queueRender`. -/
structure ISequencedMessage where
  clientId : Nat
  op : Option IMergeTreeOp
deriving DecidableEq, Repr

/-- Cursor rebase applied by the queued render job to one remote delta
(`FlowView.queueRender`): an insert at `pos1 ≤ cursor.pos` shifts the cursor by the
inserted length; a removal `[pos1, pos2)` entirely at or before the cursor shifts it
back by the removed length, and a removal whose range contains the cursor snaps it
to `pos1`. -/
def rebaseDelta (cursorPos : Int) (delta : IMergeTreeOp) : Int :=
  match delta.type with
  | .INSERT =>
      if delta.pos1 ≤ cursorPos then cursorPos + delta.text.length else cursorPos
  | .REMOVE =>
      if delta.pos2 ≤ cursorPos then cursorPos - (delta.pos2 - delta.pos1)
      else if cursorPos ≥ delta.pos1 then delta.pos1
      else cursorPos

/-- Cursor update performed when the queued render job runs: messages from another
client are rebased, the view's own messages leave the cursor untouched. -/
def applyQueuedOp (longClientId : Nat) (msg : ISequencedMessage) (cursorPos : Int) :
    Int :=
  if msg.clientId ≠ longClientId then
    match msg.op with
    | some delta => rebaseDelta cursorPos delta
    | none => cursorPos
  else cursorPos

/-- Render scheduler state: the `pendingRender` flag and the message captured by the
`requestAnimationFrame` closure of `queueRender`. -/
structure SchedulerState where
  pendingRender : Bool
  queuedMsg : Option ISequencedMessage
  cursorPos : Int
deriving DecidableEq, Repr

/-- `FlowView.queueRender`: queues a job only when none is pending; a message that
arrives while a render is already pending leaves the scheduler state unchanged (it is
absorbed by coalescing and is never rebased). -/
def queueRender (s : SchedulerState) (msg : ISequencedMessage) : SchedulerState :=
  if !s.pendingRender && msg.op.isSome then
    { pendingRender := true, queuedMsg := some msg, cursorPos := s.cursorPos }
  else s

/-- The `requestAnimationFrame` callback queued by `queueRender`: clears the pending
flag and rebases the cursor against the single message the closure captured. When no
job was queued there is no callback and the state is untouched. -/
def runAnimationFrame (longClientId : Nat) (s : SchedulerState) : SchedulerState :=
  match s.queuedMsg with
  | some msg =>
      { pendingRender := false, queuedMsg := none,
        cursorPos := applyQueuedOp longClientId msg s.cursorPos }
  | none => s

/-- Key code of backspace (`KeyCode.backspace`). -/
def KeyCode.backspace : Nat := 8

/-- Key code of the home key (`KeyCode.home`). -/
def KeyCode.home : Nat := 36

/-- Key code of the end key (`KeyCode.end`). -/
def KeyCode.endKey : Nat := 35

/-- Key code of the left arrow (`KeyCode.leftArrow`). -/
def KeyCode.leftArrow : Nat := 37

/-- Key code of the right arrow (`KeyCode.rightArrow`). -/
def KeyCode.rightArrow : Nat := 39

/-- View fields read by the keydown handler branches that move the cursor. -/
structure EditState where
  cursorPos : Int
  docLen : Nat
  viewportCharCount : Nat
deriving DecidableEq, Repr

/-- Cursor effect of the `keydownHandler` installed by `FlowView.setEdit`, for the
geometry-free branches (backspace, home, end, left and right arrow); page up and down
only scroll, and all other keys leave the cursor unchanged. -/
def keydownCursor (s : EditState) (keyCode : Nat) : Int :=
  if keyCode = KeyCode.backspace then s.cursorPos - 1
  else if keyCode = KeyCode.home then 0
  else if keyCode = KeyCode.endKey then
    (s.docLen : Int) - (s.viewportCharCount / 2 : Nat)
  else if keyCode = KeyCode.rightArrow then s.cursorPos + 1
  else if keyCode = KeyCode.leftArrow then s.cursorPos - 1
  else s.cursorPos

/-- Minimal JavaScript value model for the rejection value that
`Historian.getCommits` compares with `400` by strict equality. -/
inductive JsValue where
  | num (n : Int)
  | str (s : List Char)
  | other (id : Nat)
deriving DecidableEq, Repr

/-- Commit description returned by the commits endpoint (payload opaque here). -/
structure ICommitDetails where
  sha : List Char
deriving DecidableEq, Repr

/-- Result handler attached by `Historian.getCommits` to the REST request: a rejection
strictly equal to `400` resolves with the empty array, any other rejection is
re-raised unchanged, and a resolution passes through. -/
def getCommitsCatch (result : Except JsValue (List ICommitDetails)) :
    Except JsValue (List ICommitDetails) :=
  match result with
  | .ok value => .ok value
  | .error e => if e = .num 400 then .ok [] else .error e

/-- Whitespace test of the pruning clip loop: the character at index `i` is a space or
a newline. An out-of-range index is not whitespace (in the source `charCodeAt` yields
`NaN` there, which differs from the space code, and `charAt` yields `""`). -/
def isWsAt (text : List Char) (i : Nat) : Bool :=
  text.getD i '\x00' == ' ' || text.getD i '\x00' == '\n'

/-- Backward walk of the pruning clip loop in `renderSegment`: starting from the clip
candidate, decrement while the character at the index is neither a space nor a
newline, stopping at index 0. -/
def segClipBack (text : List Char) : Nat → Nat
  | 0 => 0
  | k + 1 => if isWsAt text (k + 1) then k + 1 else segClipBack text k

/-- Backward walk at the end of `renderFirstSegment`: decrement the offset while the
preceding character is not a space, stopping at offset 0. -/
def firstSegTrimBack (text : List Char) : Nat → Nat
  | 0 => 0
  | k + 1 => if text.getD k '\x00' == ' ' then k + 1 else firstSegTrimBack text k

/-- Document segment as traversed by the render pass: a text run, or a non-text
segment (marker) that `renderSegment` skips. -/
inductive Segment where
  | text (txt : List Char)
  | marker (len : Nat)
deriving DecidableEq, Repr

/-- Length in sequence positions of a segment. -/
def Segment.size : Segment → Nat
  | .text txt => txt.length
  | .marker n => n

/-- A document is the ordered list of its segments. -/
abbrev Doc := List Segment

/-- Total length of the document (`client.getLength()`). -/
def docLen (doc : Doc) : Nat := (doc.map Segment.size).sum

/-- Start offset of segment `i` in the document (`mergeTree.getOffset`). -/
def segStart (doc : Doc) (i : Nat) : Nat := ((doc.take i).map Segment.size).sum

/-- Geometry configuration of a render: the glyph width and line height estimates of
the view and the bounding box of the viewport div. The display is modelled as a
uniform grid of `wEst`-by-`hEst` character cells starting at the origin. -/
structure RenderConfig where
  wEst : Nat
  hEst : Nat
  boundsWidth : Nat
  boundsHeight : Nat
deriving DecidableEq, Repr

/-- Characters per wrapped line under the uniform grid (`bounds.width / w`). -/
def RenderConfig.cpl (cfg : RenderConfig) : Nat := cfg.boundsWidth / cfg.wEst

/-- The `charsPerViewport` estimate computed at the top of `renderTree`:
`floor((bounds.height / h) * (bounds.width / w))`. -/
def RenderConfig.charsPerViewport (cfg : RenderConfig) : Nat :=
  cfg.boundsHeight * cfg.boundsWidth / (cfg.hEst * cfg.wEst)

/-- Rendering span (`ISegSpan`): its text, the index of the owning segment (the `seg`
reference), the segment start offset (`segPos`), the intra-segment offset (0 when the
property is unset), and the clip offset, which this code never assigns. -/
structure Span where
  text : List Char
  seg : Nat
  segPos : Int
  offset : Nat
  clipOffset : Option Int
deriving DecidableEq, Repr

instance : Inhabited Span := ⟨⟨[], 0, 0, 0, none⟩⟩

/-- One inner div of the rendered page, with a DOM identity. -/
structure RDiv where
  id : Nat
  spans : List Span
deriving DecidableEq, Repr

instance : Inhabited RDiv := ⟨⟨0, []⟩⟩

/-- Total character count of a div's spans. -/
def divChars (d : RDiv) : Nat := (d.spans.map fun sp => sp.text.length).sum

/-- Number of wrapped lines a div occupies under the grid (0 for an empty div). -/
def divLines (cfg : RenderConfig) (d : RDiv) : Nat :=
  (divChars d + cfg.cpl - 1) / cfg.cpl

/-- Top pixel of the div at index `j` (divs stack downward from y = 0). -/
def divTopAt (cfg : RenderConfig) (divs : List RDiv) (j : Nat) : Int :=
  (cfg.hEst * ((divs.take j).map (divLines cfg)).sum : Nat)

/-- Bottom pixel of the div at index `j` (`getBoundingClientRect().bottom`). -/
def divBottomAt (cfg : RenderConfig) (divs : List RDiv) (j : Nat) : Int :=
  (cfg.hEst * ((divs.take (j + 1)).map (divLines cfg)).sum : Nat)

/-- Mutable state threaded through one `renderTree` pass. `detached` keeps the divs
removed from the page by pruning, since removed DOM nodes retain their children and
the captured `firstDiv` reference may point at one. -/
structure RenderState where
  divs : List RDiv
  detached : List RDiv
  nextId : Nat
  innerId : Nat
  charLength : Nat
  firstSeg : Bool
  splitTopSeg : Bool
  cursorRendered : Bool
  viewportEndChar : Int
  adjustedTopChar : Int
  cursorPos : Int
  prevTopSegment : Option Nat
  stopped : Bool
deriving DecidableEq, Repr

/-- Append a span to the current innerDiv (`innerDiv.appendChild`). -/
def appendToInner (st : RenderState) (sp : Span) : RenderState :=
  { st with divs := st.divs.map fun d =>
      if d.id = st.innerId then { d with spans := d.spans ++ [sp] } else d }

/-- The `freshDiv` helper of `renderSegment`: append a new empty inner div. -/
def freshDiv (st : RenderState) : RenderState :=
  { st with divs := st.divs ++ [⟨st.nextId, []⟩], innerId := st.nextId,
            nextId := st.nextId + 1 }

/-- `segmentToSpan` of `renderSegment`: append the text as one span, or as two spans
split at the cursor when `renderCursor` is set and the cursor falls inside the span's
range; the from-cursor span records the cursor binding (`cursorRendered`). -/
def segmentToSpan (segText : List Char) (segIdx : Nat) (offset : Nat)
    (startChar : Int) (renderCursor : Bool) (st : RenderState) : RenderState :=
  let startPos : Int := startChar + offset
  let endPos : Int := startPos + segText.length
  if renderCursor ∧ st.cursorPos ≥ startPos ∧ st.cursorPos < endPos then
    let cursorRelPos : Nat := (st.cursorPos - startPos).toNat
    let relSpan : Span :=
      ⟨segText.drop cursorRelPos, segIdx, startChar, cursorRelPos + offset, none⟩
    let st1 :=
      if cursorRelPos > 0 then
        appendToInner st ⟨segText.take cursorRelPos, segIdx, startChar, offset, none⟩
      else st
    { appendToInner st1 relSpan with cursorRendered := true }
  else
    appendToInner st ⟨segText, segIdx, startChar, offset, none⟩

/-- Probe loop of `renderFirstSegment` under the grid: starting at half a line height,
walk down one estimated line height at a time, reading the character offset under the
probe point, until the probed offset reaches the requested start or the probe leaves
the rendered copy; the result is the offset of the previous probe. -/
def probeLoop (cfg : RenderConfig) (bottom : Int) (start : Int) :
    Nat → Nat → Int → Nat
  | 0, offset, _ => offset
  | fuel + 1, offset, y =>
    if y > bottom then offset
    else
      let newOffset := (y.toNat / cfg.hEst) * cfg.cpl
      if (newOffset : Int) < start then
        probeLoop cfg bottom start fuel newOffset (y + cfg.hEst)
      else offset

/-- `renderFirstSegment`: render a probe copy of the whole first segment, walk the
probe point down to the character at the viewport top, then trim the found offset
back to the nearest preceding space; returns the resulting in-segment offset. -/
def renderFirstSegment (cfg : RenderConfig) (txt : List Char) (start : Int) : Nat :=
  let bottom : Int := cfg.hEst * ((txt.length + cfg.cpl - 1) / cfg.cpl)
  let offset := probeLoop cfg bottom start (txt.length + 2) 0 (cfg.hEst / 2 : Nat)
  firstSegTrimBack txt offset

/-- Character offset within its div at which span `i` of div `d` starts. -/
def spanStartChar (d : RDiv) (i : Nat) : Nat :=
  ((d.spans.take i).map fun sp => sp.text.length).sum

/-- Top pixel of span `i` inside the div at index `j` under the grid. -/
def spanTop (cfg : RenderConfig) (divs : List RDiv) (j i : Nat) : Int :=
  divTopAt cfg divs j +
    (cfg.hEst * (spanStartChar (divs.getD j default) i / cfg.cpl) : Nat)

/-- Bottom pixel of span `i` inside the div at index `j` under the grid. -/
def spanBottom (cfg : RenderConfig) (divs : List RDiv) (j i : Nat) : Int :=
  let d := divs.getD j default
  let c0 := spanStartChar d i
  let len := (d.spans.getD i default).text.length
  if len = 0 then spanTop cfg divs j i
  else divTopAt cfg divs j + (cfg.hEst * ((c0 + len - 1) / cfg.cpl + 1) : Nat)

/-- Per-line client rectangles of span `i` in the div at index `j`: a (right, bottom)
pair for each wrapped line the span touches, top to bottom (`getClientRects`). -/
def spanRects (cfg : RenderConfig) (divs : List RDiv) (j i : Nat) :
    List (Int × Int) :=
  let d := divs.getD j default
  let c0 := spanStartChar d i
  let len := (d.spans.getD i default).text.length
  if len = 0 then []
  else
    let l0 := c0 / cfg.cpl
    let l1 := (c0 + len - 1) / cfg.cpl
    (List.range (l1 - l0 + 1)).map fun k =>
      let l := l0 + k
      let lastCol := min (c0 + len - 1) ((l + 1) * cfg.cpl - 1) - l * cfg.cpl
      (Int.ofNat ((lastCol + 1) * cfg.wEst),
        divTopAt cfg divs j + (cfg.hEst * (l + 1) : Nat))

/-- Scan of the rect list from last to first for the last rect whose bottom fits the
constraint, yielding its (right, bottom); (0, 0) when none fits, matching the
untouched `x = 0, y = 0` initialisation in the source. -/
def lastFittingRect (constraint : Int) (rects : List (Int × Int)) : Int × Int :=
  match rects.reverse.find? (fun r => decide (r.2 ≤ constraint)) with
  | some r => r
  | none => (0, 0)

/-- Grid model of `pointerToElementOffsetWebkit` composed with `elmOffToSegOff`
against span `i` of the div at index `j`: the character offset within the span whose
cell contains the pixel (x, y). -/
def caretOffsetInSpan (cfg : RenderConfig) (divs : List RDiv) (j i : Nat)
    (x y : Int) : Int :=
  let c0 := spanStartChar (divs.getD j default) i
  (((y - divTopAt cfg divs j).toNat / cfg.hEst) * cfg.cpl + x.toNat / cfg.wEst : Nat)
    - (c0 : Int)

/-- The re-insertion loop over the retained pruned div's spans. The source iterates
the live `children` collection with an incrementing index while `appendChild` moves
fitting spans out of it, so after each move the next span is skipped. A span that no
longer fits is clipped: the caret offset at the last fitting rectangle plus one is
trimmed back to the nearest whitespace of the owning segment's text, and only a
positive clip emits a clipped span; the loop then stops. Returns the state, the last
segment reached, and the offset within it of the rendered end. -/
def reinsertLoop (cfg : RenderConfig) (doc : Doc) (constraint : Int) :
    Nat → Nat → RenderState → Option Nat → Nat → RenderState × Option Nat × Nat
  | 0, _, st, lastSeg, lastSegOff => (st, lastSeg, lastSegOff)
  | fuel + 1, i, st, lastSeg, lastSegOff =>
    let j := st.divs.length - 1
    let lp := st.divs.getD j default
    if i < lp.spans.length then
      let sp := lp.spans.getD i default
      if spanBottom cfg st.divs j i ≤ constraint then
        let st1 := { st with divs := st.divs.map fun d =>
            if d.id = lp.id then { d with spans := d.spans.eraseIdx i } else d }
        let st2 := appendToInner st1 sp
        reinsertLoop cfg doc constraint fuel (i + 1) st2 (some sp.seg)
          ((doc.getD sp.seg (.marker 0)).size)
      else
        if constraint - spanTop cfg st.divs j i > (cfg.hEst : Int) then
          let r := lastFittingRect constraint (spanRects cfg st.divs j i)
          let x := r.1 - (cfg.wEst / 2 : Nat)
          let y := r.2 - (cfg.hEst / 2 : Nat)
          if y > 0 then
            let segTxt :=
              match doc.getD sp.seg (.marker 0) with
              | .text t => t
              | .marker _ => []
            let segClip :=
              segClipBack segTxt (caretOffsetInSpan cfg st.divs j i x y + 1).toNat
            let st1 :=
              if segClip > 0 then
                segmentToSpan (segTxt.take segClip) sp.seg 0 sp.segPos true st
              else st
            (st1, some sp.seg, segClip)
          else (st, lastSeg, lastSegOff)
        else (st, lastSeg, lastSegOff)
    else (st, lastSeg, lastSegOff)

/-- The prune loop: walk backward from the div before the current innerDiv, removing
divs whose bottom exceeds the constraint and retaining the last removed one, stopping
at the first div that fits. The argument `j + 1` means the candidate is div `j`. -/
def pruneWalk (cfg : RenderConfig) (constraint : Int) :
    Nat → RenderState → Option RDiv → RenderState × Option RDiv
  | 0, st, lastPruned => (st, lastPruned)
  | j + 1, st, lastPruned =>
    if divBottomAt cfg st.divs j > constraint then
      let pd := st.divs.getD j default
      let det :=
        match lastPruned with
        | some q => q :: st.detached
        | none => st.detached
      let st1 := { st with divs := st.divs.eraseIdx j, detached := det }
      pruneWalk cfg constraint j st1 (some pd)
    else (st, lastPruned)

/-- `renderSegment`: the traversal callback of `renderTree`, for the segment with
index `segIdx` starting at document offset `segPos`, entered at in-segment offset
`start`; `last` marks the end of the traversal range. Returning with `stopped` set
corresponds to the callback returning false. -/
def renderSegment (cfg : RenderConfig) (doc : Doc) (topChar : Int) (segIdx : Nat)
    (segPos : Int) (start : Int) (last : Bool) (st : RenderState) : RenderState :=
  match doc.getD segIdx (.marker 0) with
  | .marker _ => st
  | .text txt =>
    let st :=
      if st.firstSeg ∧ st.prevTopSegment ≠ some segIdx then
        { st with splitTopSeg := false, prevTopSegment := some segIdx }
      else st
    let step : List Char × Nat × RenderState :=
      if start > 0 then
        let part : List Char × Nat × Int :=
          if st.splitTopSeg then
            let off := renderFirstSegment cfg txt start
            let segText := txt.drop off
            (segText, off, topChar + ((txt.length - segText.length : Nat) - start))
          else (txt, 0, topChar - start)
        let st1 := { st with adjustedTopChar := part.2.2 }
        let st2 :=
          if st1.cursorPos < st1.adjustedTopChar then
            { st1 with cursorPos := st1.adjustedTopChar }
          else st1
        (part.1, part.2.1, st2)
      else (txt, 0, if st.firstSeg then { st with adjustedTopChar := topChar } else st)
    let segText := step.1
    let segOffset := step.2.1
    let st := step.2.2
    let st := { st with firstSeg := false, charLength := st.charLength + segText.length }
    let st := segmentToSpan segText segIdx segOffset segPos true st
    let st := if segText.getLast? = some '\n' then freshDiv st else st
    if st.charLength > cfg.charsPerViewport ∨ last then
      let constraint : Int := cfg.boundsHeight
      let lastInnerBottom := divBottomAt cfg st.divs (st.divs.length - 1)
      if lastInnerBottom > constraint ∨ last then
        let st :=
          if (st.divs.getD (st.divs.length - 1) default).spans.length > 0 then
            freshDiv st
          else st
        if st.divs.length ≥ 2 then
          let walk := pruneWalk cfg constraint (st.divs.length - 1) st none
          let st :=
            match walk.2 with
            | some lp =>
              let st2 := { walk.1 with divs := walk.1.divs ++ [lp] }
              let re := reinsertLoop cfg doc constraint (lp.spans.length + 1) 0 st2
                none 0
              let j := re.1.divs.length - 1
              let lpRemaining := re.1.divs.getD j default
              let remaining := re.1.divs.dropLast
              let det := lpRemaining :: re.1.detached
              let st3 := { re.1 with divs := remaining, detached := det }
              match re.2.1 with
              | some segi =>
                  { st3 with viewportEndChar := (segStart doc segi : Int) + re.2.2 }
              | none => st3
            | none => walk.1
          { st with stopped := true }
        else st
      else st
    else st

/-- Segments visited by the traversal started at `pos`: every segment overlapping
`[pos, end)` in order, with its start offset, the in-segment entry offset, and the
end-of-range flag. Modelled from the spec: the merge-tree `mapRange` (outside this
repository slice) performs a lazy in-order walk from the segment containing the start
offset to the end of the sequence, and the overflow check treats the final visited
segment as the end of the range. -/
def traversalVisits (doc : Doc) (pos : Int) : List (Nat × Int × Int × Bool) :=
  (List.range doc.length).filterMap fun i =>
    let s : Int := segStart doc i
    let sz : Int := (doc.getD i (.marker 0)).size
    if s + sz > pos then some (i, s, pos - s, decide (i = doc.length - 1)) else none

/-- Fold of `renderSegment` over the traversal; a false return stops the walk. -/
def renderTreeLoop (cfg : RenderConfig) (doc : Doc) (topChar : Int) :
    List (Nat × Int × Int × Bool) → RenderState → RenderState
  | [], st => st
  | v :: rest, st =>
    if st.stopped then st
    else
      renderTreeLoop cfg doc topChar rest
        (renderSegment cfg doc topChar v.1 v.2.1 v.2.2.1 v.2.2.2 st)

/-- `findLastChar` of `renderTree`: from the last div (stepping back once over an
empty trailing div), the last span's clip offset, or its `segPos` plus its text
length minus one; -1 when there is no such span. -/
def findLastChar (divs : List RDiv) : Int :=
  match divs.getLast? with
  | none => -1
  | some lastDiv =>
    let child : Option RDiv :=
      if lastDiv.spans.isEmpty then
        if divs.length ≥ 2 then some (divs.getD (divs.length - 2) default) else none
      else some lastDiv
    match child with
    | none => -1
    | some c =>
      match c.spans.getLast? with
      | none => -1
      | some lastSpan =>
        match lastSpan.clipOffset with
        | some clip => clip
        | none => lastSpan.segPos + lastSpan.text.length - 1

/-- Final cursor placement of `renderTree`: when no span claimed the cursor binding
or the cursor offset exceeds `viewportEndChar`, rebind the cursor to the first span
of the first div (its `segPos` plus its offset); an empty first div changes
nothing. -/
def cursorPlacement (cursorRendered : Bool) (viewportEndChar : Int)
    (firstDivSpans : List Span) (cursorPos : Int) : Int :=
  if ¬cursorRendered ∨ cursorPos > viewportEndChar then
    match firstDivSpans with
    | firstSpan :: _ => firstSpan.segPos + firstSpan.offset
    | [] => cursorPos
  else cursorPos

/-- One full `renderTree` pass: traverse and render from `pos`, then resolve
`viewportEndChar` (falling back to `charLength + adjustedTopChar` when nothing set
it and no last character is found), then place the cursor. -/
def renderTree (cfg : RenderConfig) (doc : Doc) (pos : Int) (topChar : Int)
    (cursorPos adjustedTopChar : Int) (prevTopSegment : Option Nat) : RenderState :=
  let st0 : RenderState :=
    { divs := [⟨0, []⟩], detached := [], nextId := 1, innerId := 0,
      charLength := 0, firstSeg := true, splitTopSeg := true,
      cursorRendered := false, viewportEndChar := -1,
      adjustedTopChar := adjustedTopChar, cursorPos := cursorPos,
      prevTopSegment := prevTopSegment, stopped := false }
  let st := renderTreeLoop cfg doc topChar (traversalVisits doc pos) st0
  let st :=
    if st.viewportEndChar < 0 then
      let endChar := findLastChar st.divs
      if endChar < 0 then
        { st with viewportEndChar := (st.charLength : Int) + st.adjustedTopChar }
      else { st with viewportEndChar := endChar }
    else st
  let firstDivSpans :=
    (((st.divs ++ st.detached).find? fun d => d.id == 0).getD default).spans
  { st with cursorPos :=
      cursorPlacement st.cursorRendered st.viewportEndChar firstDivSpans st.cursorPos }

/-- Persistent `FlowView` fields read and written by `render`. -/
structure FlowState where
  topChar : Int
  adjustedTopChar : Int
  viewportEndChar : Int
  cursorPos : Int
  prevTopSegment : Option Nat
  page : List RDiv
deriving DecidableEq, Repr

/-- `FlowView.render(topChar?, changed)`: coalesce a repeated top char (returning with
no work unless `changed` forces a layout), clamp the stored top char into range, then
run a fresh `renderTree` pass. The source function never returns a value (every exit
is a bare return), modelled by the constant `none` result component. -/
def render (cfg : RenderConfig) (doc : Doc) (s : FlowState) (topChar : Option Int)
    (changed : Bool) : FlowState × Option Int :=
  let len : Int := docLen doc
  match topChar with
  | some t =>
    if (s.topChar = t ∨ (s.topChar = 0 ∧ t ≤ 0)) ∧ changed = false then (s, none)
    else
      let tc1 := if t ≥ len then len - (cfg.cpl : Int) else t
      let tc := if tc1 < 0 then 0 else tc1
      let rt := renderTree cfg doc tc tc s.cursorPos s.adjustedTopChar
        s.prevTopSegment
      ({ topChar := tc, adjustedTopChar := rt.adjustedTopChar,
         viewportEndChar := rt.viewportEndChar, cursorPos := rt.cursorPos,
         prevTopSegment := rt.prevTopSegment, page := rt.divs }, none)
  | none =>
    let rt := renderTree cfg doc s.topChar s.topChar s.cursorPos s.adjustedTopChar
      s.prevTopSegment
    ({ topChar := s.topChar, adjustedTopChar := rt.adjustedTopChar,
       viewportEndChar := rt.viewportEndChar, cursorPos := rt.cursorPos,
       prevTopSegment := rt.prevTopSegment, page := rt.divs }, none)

/-- Example geometry: 10-pixel glyphs and lines in a 50 by 1000 pixel viewport, so
five characters per line and a 500-character viewport estimate. -/
def exCfg : RenderConfig := ⟨10, 10, 50, 1000⟩

/-- Example document: one 20-character text segment with spaces at offsets 4, 9, 14. -/
def exDoc : Doc := [Segment.text "aaaa bbbb cccc ddddd".toList]

/-- Example initial view state: top char 0, cursor 0, nothing rendered yet. -/
def exS0 : FlowState := ⟨0, 0, -1, 0, none, []⟩

/-- View state after a first `render(25)` on the example document. -/
def exR1 : FlowState := (render exCfg exDoc exS0 (some 25) false).1

/-- View state after a second `render(25)` with no intervening mutation. -/
def exR2 : FlowState := (render exCfg exDoc exR1 (some 25) false).1

/-- C1: a remote insertion of `n` characters at offset `p`, processed by the queued
render job, moves a cursor at `c` to `c + n` when `p ≤ c` and leaves it unchanged
when `p > c`. -/
theorem C1_remote_insert_rebase (c p q : Int) (txt : List Char) (cid lid : Nat)
    (hremote : cid ≠ lid) :
    (p ≤ c →
      (runAnimationFrame lid (queueRender ⟨false, none, c⟩
        ⟨cid, some ⟨.INSERT, p, q, txt⟩⟩)).cursorPos = c + txt.length)
    ∧ (p > c →
      (runAnimationFrame lid (queueRender ⟨false, none, c⟩
        ⟨cid, some ⟨.INSERT, p, q, txt⟩⟩)).cursorPos = c) := by
  constructor <;> intro h
  · simp [queueRender, runAnimationFrame, applyQueuedOp, rebaseDelta, hremote, h]
  · simp [queueRender, runAnimationFrame, applyQueuedOp, rebaseDelta, hremote,
      not_le.mpr h]

/-- Witness for C1 at cursor 5 and a remote insertion of two characters at offset 1. -/
theorem C1_remote_insert_rebase_witness :
    (runAnimationFrame 0 (queueRender ⟨false, none, 5⟩
      ⟨7, some ⟨.INSERT, 1, 0, ['x', 'y']⟩⟩)).cursorPos = 7 := by
  have h := (C1_remote_insert_rebase 5 1 0 ['x', 'y'] 7 0 (by decide)).1 (by decide)
  simpa using h

/-- C2: a remote removal of range `[p, q)` processed by the queued render job: when
`q ≤ c` the cursor moves to `c - (q - p)`; when the cursor lies inside the removed
range it lands exactly at `p`; otherwise it is unchanged. -/
theorem C2_remote_remove_rebase (c p q : Int) (txt : List Char) (cid lid : Nat)
    (hremote : cid ≠ lid) :
    (q ≤ c →
      (runAnimationFrame lid (queueRender ⟨false, none, c⟩
        ⟨cid, some ⟨.REMOVE, p, q, txt⟩⟩)).cursorPos = c - (q - p))
    ∧ (q > c → c ≥ p →
      (runAnimationFrame lid (queueRender ⟨false, none, c⟩
        ⟨cid, some ⟨.REMOVE, p, q, txt⟩⟩)).cursorPos = p)
    ∧ (q > c → c < p →
      (runAnimationFrame lid (queueRender ⟨false, none, c⟩
        ⟨cid, some ⟨.REMOVE, p, q, txt⟩⟩)).cursorPos = c) := by
  refine ⟨fun h => ?_, fun h h2 => ?_, fun h h2 => ?_⟩
  · simp [queueRender, runAnimationFrame, applyQueuedOp, rebaseDelta, hremote, h]
  · simp [queueRender, runAnimationFrame, applyQueuedOp, rebaseDelta, hremote,
      not_le.mpr h, h2]
  · simp [queueRender, runAnimationFrame, applyQueuedOp, rebaseDelta, hremote,
      not_le.mpr h, not_le.mpr h2]

/-- Witness for C2: cursor 5 inside a remote removal of `[3, 8)` lands at 3. -/
theorem C2_remote_remove_rebase_witness :
    (runAnimationFrame 0 (queueRender ⟨false, none, 5⟩
      ⟨7, some ⟨.REMOVE, 3, 8, []⟩⟩)).cursorPos = 3 :=
  (C2_remote_remove_rebase 5 3 8 [] 7 0 (by decide)).2.1 (by decide) (by decide)

/-- C3 counterexample: the backspace branch of the keydown handler at cursor offset 0
drives `cursor.pos` to -1, below the claimed invariant bound 0; no clamping to
`[0, length]` is performed after the mutation. -/
theorem C3_counterexample :
    keydownCursor ⟨0, 10, 4⟩ KeyCode.backspace = -1 ∧ ¬(0 ≤ (-1 : Int)) := by
  decide

/-- C3 amended: no clamping is applied after mutations anywhere in the view. The
remote rebase itself does keep `0 ≤ cursor.pos ≤ length` whenever the incoming op is
in range, but the local keystroke branches (backspace or left arrow at 0, right arrow
at the end) can move `cursor.pos` outside `[0, length]`. -/
theorem C3_rebase_preserves_bounds (c len p1 p2 : Int) (txt : List Char)
    (hc0 : 0 ≤ c) (hclen : c ≤ len) (hp0 : 0 ≤ p1) :
    (p1 ≤ len →
      0 ≤ rebaseDelta c ⟨.INSERT, p1, p2, txt⟩
      ∧ rebaseDelta c ⟨.INSERT, p1, p2, txt⟩ ≤ len + txt.length)
    ∧ (p1 ≤ p2 → p2 ≤ len →
      0 ≤ rebaseDelta c ⟨.REMOVE, p1, p2, txt⟩
      ∧ rebaseDelta c ⟨.REMOVE, p1, p2, txt⟩ ≤ len - (p2 - p1)) := by
  constructor
  · intro hle
    simp only [rebaseDelta]
    split_ifs <;> constructor <;> omega
  · intro h12 h2len
    simp only [rebaseDelta]
    split_ifs <;> constructor <;> omega

/-- Witness for the amended C3: removal `[2, 4)` over a cursor at 5 in a length-10
document stays inside `[0, 8]`. -/
theorem C3_rebase_preserves_bounds_witness :
    0 ≤ rebaseDelta 5 ⟨.REMOVE, 2, 4, []⟩
    ∧ rebaseDelta 5 ⟨.REMOVE, 2, 4, []⟩ ≤ 10 - (4 - 2) := by
  have h := (C3_rebase_preserves_bounds 5 10 2 4 [] (by decide) (by decide)
    (by decide)).2 (by decide) (by decide)
  simpa using h

/-- C4 counterexample: two remote inserts arrive before the queued job runs; the job
rebases the cursor only against the first (yielding 6), while rebasing against every
batched op in arrival order would yield 7. -/
theorem C4_counterexample :
    (runAnimationFrame 0
      (queueRender (queueRender ⟨false, none, 5⟩ ⟨1, some ⟨.INSERT, 0, 0, ['x']⟩⟩)
        ⟨2, some ⟨.INSERT, 0, 0, ['y']⟩⟩)).cursorPos = 6
    ∧ rebaseDelta (rebaseDelta 5 ⟨.INSERT, 0, 0, ['x']⟩) ⟨.INSERT, 0, 0, ['y']⟩ = 7
    ∧ ((6 : Int) ≠ 7) := by decide

/-- C4 amended: the queued render job applies the rebase only for the single message
that set the pending flag; every message arriving while a render is pending is
coalesced into that job without its rebase ever being applied. -/
theorem C4_job_rebases_only_first (lid : Nat) (c : Int) (m : ISequencedMessage)
    (rest : List ISequencedMessage) (hop : m.op.isSome = true) :
    (runAnimationFrame lid
      (rest.foldl queueRender (queueRender ⟨false, none, c⟩ m))).cursorPos
      = applyQueuedOp lid m c := by
  have hq : queueRender ⟨false, none, c⟩ m = ⟨true, some m, c⟩ := by
    simp [queueRender, hop]
  have habsorb : ∀ msgs : List ISequencedMessage,
      msgs.foldl queueRender (⟨true, some m, c⟩ : SchedulerState)
        = ⟨true, some m, c⟩ := by
    intro msgs
    induction msgs with
    | nil => rfl
    | cons x xs ih =>
      have hx : queueRender ⟨true, some m, c⟩ x = ⟨true, some m, c⟩ := by
        simp [queueRender]
      rw [List.foldl_cons, hx, ih]
  rw [hq, habsorb]
  rfl

/-- Witness for the amended C4: a burst of two messages rebases only the first. -/
theorem C4_job_rebases_only_first_witness :
    (runAnimationFrame 0
      ([(⟨2, some ⟨.INSERT, 0, 0, ['y']⟩⟩ : ISequencedMessage)].foldl queueRender
        (queueRender ⟨false, none, 5⟩ ⟨1, some ⟨.INSERT, 0, 0, ['x']⟩⟩))).cursorPos
      = applyQueuedOp 0 ⟨1, some ⟨.INSERT, 0, 0, ['x']⟩⟩ 5 :=
  C4_job_rebases_only_first 0 5 ⟨1, some ⟨.INSERT, 0, 0, ['x']⟩⟩
    [⟨2, some ⟨.INSERT, 0, 0, ['y']⟩⟩] (by decide)

/-- C5: after layout, when no span claimed the cursor binding or the cursor offset
exceeds `viewportEndChar`, and the page has a first rendered span, the cursor is
rebound to that span's sequence offset (its `segPos` plus its intra-segment
offset). -/
theorem C5_cursor_rebind (cursorRendered : Bool) (vEC cursorPos : Int)
    (firstSpan : Span) (rest : List Span)
    (h : cursorRendered = false ∨ cursorPos > vEC) :
    cursorPlacement cursorRendered vEC (firstSpan :: rest) cursorPos
      = firstSpan.segPos + firstSpan.offset := by
  rcases h with h | h
  · simp [cursorPlacement, h]
  · simp [cursorPlacement, h]

/-- Witness for C5: an unclaimed cursor is rebound to `segPos + offset = 5`. -/
theorem C5_cursor_rebind_witness :
    cursorPlacement false 19 [⟨['a'], 0, 3, 2, none⟩] 0 = 5 := by
  have h := C5_cursor_rebind false 19 0 ⟨['a'], 0, 3, 2, none⟩ [] (Or.inl rfl)
  simpa using h

/-- C6 counterexample: in the whitespace-free line "abcdef" with the overflow clip
candidate at index 3, the clip loop backs off all the way to 0 (after which the
`segClip > 0` guard emits no clipped span) instead of hard-breaking at the overflow
point as claimed. -/
theorem C6_counterexample :
    segClipBack "abcdef".toList 3 = 0
    ∧ ((List.range 6).all fun i => !(isWsAt "abcdef".toList i)) = true
    ∧ (0 : Nat) ≠ 3 := by decide

/-- C6 amended: word-boundary trimming cuts before a whitespace character at or
before the overflow point when one exists (the clip index is the greatest whitespace
index at or before the candidate, and nothing after it up to the candidate is
whitespace); when no whitespace exists there, the cut is backed off all the way to
index 0, where the `segClip > 0` guard drops the clipped span entirely, and the
first-segment trim similarly stops only just after a space or at the segment
start. -/
theorem C6_word_boundary_trim (text : List Char) (s : Nat) :
    (segClipBack text s ≤ s
      ∧ (segClipBack text s = 0 ∨ isWsAt text (segClipBack text s) = true)
      ∧ ∀ j, segClipBack text s < j → j ≤ s → isWsAt text j = false)
    ∧ (firstSegTrimBack text s ≤ s
      ∧ (firstSegTrimBack text s = 0
          ∨ text.getD (firstSegTrimBack text s - 1) '\x00' = ' ')) := by
  constructor
  · induction s with
    | zero =>
      refine ⟨Nat.le_refl 0, Or.inl rfl, fun j hj hj2 => ?_⟩
      omega
    | succ k ih =>
      by_cases h : isWsAt text (k + 1) = true
      · refine ⟨?_, ?_, ?_⟩
        · simp [segClipBack, h]
        · rw [show segClipBack text (k + 1) = k + 1 by simp [segClipBack, h]]
          exact Or.inr h
        · intro j hj hj2
          rw [show segClipBack text (k + 1) = k + 1 by simp [segClipBack, h]] at hj
          omega
      · have hred : segClipBack text (k + 1) = segClipBack text k := by
          simp [segClipBack, h]
        obtain ⟨ih1, ih2, ih3⟩ := ih
        refine ⟨?_, ?_, ?_⟩
        · rw [hred]; omega
        · rw [hred]; exact ih2
        · intro j hj hj2
          rw [hred] at hj
          rcases eq_or_lt_of_le hj2 with heq | hlt
          · subst heq
            simpa using h
          · exact ih3 j hj (by omega)
  · induction s with
    | zero => exact ⟨Nat.le_refl 0, Or.inl rfl⟩
    | succ k ih =>
      by_cases h : (text.getD k '\x00' == ' ') = true
      · have hred : firstSegTrimBack text (k + 1) = k + 1 := by
          simp only [firstSegTrimBack]
          rw [if_pos h]
        refine ⟨by omega, Or.inr ?_⟩
        rw [hred]
        simpa using eq_of_beq h
      · have hred : firstSegTrimBack text (k + 1) = firstSegTrimBack text k := by
          simp only [firstSegTrimBack]
          rw [if_neg h]
        exact ⟨by rw [hred]; omega, by rw [hred]; exact ih.2⟩

/-- Witness for the amended C6: in "ab cd" from candidate 4 the clip lands at or
below 4 and index 4 itself is not whitespace. -/
theorem C6_word_boundary_trim_witness :
    segClipBack "ab cd".toList 4 ≤ 4 ∧ isWsAt "ab cd".toList 4 = false := by
  have h := C6_word_boundary_trim ("ab cd".toList) 4
  exact ⟨h.1.1, h.1.2.2 4 (by decide) (by decide)⟩

/-- C7 counterexample: a traversal that renders nothing (a lone non-text segment)
falls back to `charLength + adjustedTopChar`, here the stale adjusted top char 5,
not the claimed `topChar` 7. -/
theorem C7_counterexample :
    (renderTree ⟨10, 10, 50, 1000⟩ [Segment.marker 3] 7 7 0 5 none).viewportEndChar
      = 5
    ∧ ((5 : Int) ≠ 7) := by decide

/-- C7 amended: when the traversal produces no rendered content, the pass completes
without failure, the page consists of the single empty initial div, the cursor is
unchanged, and `viewportEndChar` falls back to `charLength + adjustedTopChar`, which
for the empty page is the persisted `adjustedTopChar`, not `topChar`. -/
theorem C7_empty_traversal_fallback (cfg : RenderConfig) (doc : Doc)
    (pos topChar cursorPos adjusted : Int) (prevTop : Option Nat)
    (hmark : ∀ seg ∈ doc, ∃ n, seg = Segment.marker n) :
    (renderTree cfg doc pos topChar cursorPos adjusted prevTop).viewportEndChar
        = adjusted
    ∧ (renderTree cfg doc pos topChar cursorPos adjusted prevTop).divs = [⟨0, []⟩]
    ∧ (renderTree cfg doc pos topChar cursorPos adjusted prevTop).cursorPos
        = cursorPos := by
  have hgetD : ∀ (l : Doc), (∀ seg ∈ l, ∃ n, seg = Segment.marker n) → ∀ i : Nat,
      ∃ n, l.getD i (.marker 0) = Segment.marker n := by
    intro l hl
    induction l with
    | nil => intro i; exact ⟨0, by cases i <;> rfl⟩
    | cons x xs ih =>
      intro i
      cases i with
      | zero => exact hl x (List.mem_cons_self x xs)
      | succ k =>
        exact ih (fun s hs => hl s (List.mem_cons_of_mem x hs)) k
  have hid : ∀ segIdx segPos start last st,
      renderSegment cfg doc topChar segIdx segPos start last st = st := by
    intro segIdx segPos start last st
    obtain ⟨n, hn⟩ := hgetD doc hmark segIdx
    unfold renderSegment
    rw [hn]
  have hloop : ∀ visits st, renderTreeLoop cfg doc topChar visits st = st := by
    intro visits
    induction visits with
    | nil => intro st; rfl
    | cons v rest ih =>
      intro st
      unfold renderTreeLoop
      rw [hid, ih, ite_self]
  unfold renderTree
  simp only [hloop]
  simp [findLastChar, cursorPlacement]

/-- Witness for the amended C7: a two-marker document, stale adjusted top char 5. -/
theorem C7_empty_traversal_fallback_witness :
    (renderTree exCfg [Segment.marker 1, Segment.marker 2] 0 7 4 5
      none).viewportEndChar = 5 := by
  have h := C7_empty_traversal_fallback exCfg [Segment.marker 1, Segment.marker 2]
    0 7 4 5 none (by
      intro seg hs
      simp only [List.mem_cons, List.not_mem_nil, or_false] at hs
      rcases hs with h1 | h1
      · exact ⟨1, h1⟩
      · exact ⟨2, h1⟩)
  exact h.1

/-- C8 counterexample: rendering the example document twice at topChar 25 with no
intervening mutation yields different pages (the second pass takes the
`splitTopSeg` probe-and-trim path because `prevTopSegment` now matches, rendering
a trimmed top span) and different viewport state. -/
theorem C8_counterexample : exR2.page ≠ exR1.page ∧ exR2 ≠ exR1 := by decide

/-- C8 amended: calling `render(topChar)` twice with no intervening mutation leaves
the rendered page and all viewport state exactly as the first call left them
provided `topChar` is below the document length (the second call then returns
through the coalescing check without re-rendering); for `topChar` at or beyond the
document length the second call re-renders and may differ. -/
theorem C8_second_render_noop (cfg : RenderConfig) (doc : Doc) (s : FlowState)
    (t : Int) (h : t < (docLen doc : Int)) :
    render cfg doc (render cfg doc s (some t) false).1 (some t) false
      = ((render cfg doc s (some t) false).1, none) := by
  have hearly : ∀ s2 : FlowState, (s2.topChar = t ∨ (s2.topChar = 0 ∧ t ≤ 0)) →
      render cfg doc s2 (some t) false = (s2, none) := by
    intro s2 h2
    unfold render
    simp [h2]
  by_cases h1 : s.topChar = t ∨ (s.topChar = 0 ∧ t ≤ 0)
  · rw [hearly s h1, hearly s h1]
  · have e1 : (render cfg doc s (some t) false).1.topChar
        = if t < 0 then 0 else t := by
      unfold render
      simp [h1, if_neg (not_le.mpr h)]
    apply hearly
    by_cases h0 : t < 0
    · right
      rw [e1, if_pos h0]
      exact ⟨rfl, le_of_lt h0⟩
    · left
      rw [e1, if_neg h0]

/-- Witness for the amended C8 on the example document at the in-range topChar 3. -/
theorem C8_second_render_noop_witness :
    render exCfg exDoc (render exCfg exDoc exS0 (some 3) false).1 (some 3) false
      = ((render exCfg exDoc exS0 (some 3) false).1, none) :=
  C8_second_render_noop exCfg exDoc exS0 3 (by decide)

/-- C9 counterexample: `render(25)` on the example state recomputes
`viewportEndChar = 19` but its result value is `none` (the source returns
undefined), not the bottom-of-view offset. -/
theorem C9_counterexample :
    (render exCfg exDoc exS0 (some 25) false).2 = none
    ∧ (render exCfg exDoc exS0 (some 25) false).1.viewportEndChar = 19
    ∧ (none : Option Int) ≠ some 19 := by decide

/-- C9 amended: `render` never returns a value — the recomputed bottom-of-view
offset is only stored in `this.viewportEndChar` — and a call passing the current
top char without the force flag returns without recomputing anything. -/
theorem C9_render_returns_none (cfg : RenderConfig) (doc : Doc) (s : FlowState)
    (topChar : Option Int) (changed : Bool) :
    (render cfg doc s topChar changed).2 = none
    ∧ render cfg doc s (some s.topChar) false = (s, none) := by
  constructor
  · rcases topChar with _ | t
    · rfl
    · unfold render
      dsimp only
      split
      · rfl
      · rfl
  · unfold render
    simp

/-- C10: `Historian.getCommits` resolves with the empty array exactly when the REST
request rejects with the value 400, re-raises any other rejection value unchanged,
and passes resolutions through. -/
theorem C10_getCommits_catch (e : JsValue) (v : List ICommitDetails)
    (hne : e ≠ .num 400) :
    getCommitsCatch (.error (.num 400)) = .ok []
    ∧ getCommitsCatch (.error e) = .error e
    ∧ getCommitsCatch (.ok v) = .ok v := by
  refine ⟨rfl, ?_, rfl⟩
  simp [getCommitsCatch, hne]

/-- Witness for C10 with a non-400 rejection value and a one-commit resolution. -/
theorem C10_getCommits_catch_witness :
    getCommitsCatch (.error (.num 500)) = .error (.num 500)
    ∧ getCommitsCatch (.ok [⟨['a']⟩]) = .ok [⟨['a']⟩] := by
  have h := C10_getCommits_catch (.num 500) [⟨['a']⟩] (by decide)
  exact ⟨h.2.1, h.2.2⟩

end Flow
